import Mathlib

/-!
# Verification of the mini-Redis server in `base/base.py`

This file shallowly embeds the protocol codec (`ProtocolHandler`), the command
dispatcher (`Server.get_response` and the command handlers) and the per-connection
loop (`Server.connection_handler`) of the source file, and proves or refutes the
specification's claims about them.

Embedding conventions:

* The program is a Python 2 style program (its byte-string literals are `str`,
  `zip` returns a list, and the decoder's one-character handler keys match the
  one-byte reads; under Python 3 the very first `readline().rstrip('\r\n')`
  call would fail on a bytes/str mismatch).  We embed it under those semantics:
  a Python byte string (`str`) is a `List Char`, one `Char` per byte, and the
  distinct `unicode` type is a separate constructor.
* The socket's buffered file object is modelled as the remaining input stream
  (a `List Char`) on the read side and an output accumulator on the write side;
  `read`, `readline` and slicing follow the Python file/bytes semantics.
* Exceptions are modelled with `Except`; the exception kinds that the code can
  raise are the constructors of `PyExc`.
* Recursive frame decoding and the connection loop use a fuel parameter purely
  to witness termination; exhausting it yields the `PyExc.modelFuel` marker,
  which no theorem below ever relies on (all uses supply ample fuel).
-/

/-- One Python runtime value as the program manipulates them: the scalar types
the encoder `_write` dispatches on, plus `datetime` values (carrying the text
produced by `str(...)` on them) and `other` for a value of any further type,
carrying its text representation. -/
inductive PyVal where
  /-- a Python 2 `str`, i.e. a byte string -/
  | str (s : List Char)
  /-- a Python 2 `unicode` text string -/
  | ustr (s : List Char)
  /-- `True` / `False` (checked by `_write` before the integer case) -/
  | bool (b : Bool)
  /-- an `int` -/
  | int (n : Int)
  /-- the `Error` namedtuple with its `message` field -/
  | err (message : List Char)
  /-- a `list` (or `tuple`) -/
  | list (xs : List PyVal)
  /-- a `dict`, as its association list in insertion order (keys unique) -/
  | dict (xs : List (PyVal × PyVal))
  /-- a `set`, as the list of its elements in iteration order -/
  | set (xs : List PyVal)
  /-- `None` -/
  | none
  /-- a `datetime.datetime`, carrying the text `str(...)` renders it to -/
  | datetime (s : List Char)
  /-- a value of any type not handled by `_write`, carrying `str(...)` of it -/
  | other (s : List Char)

/-- The exception kinds the embedded code can raise. -/
inductive PyExc where
  /-- `Disconnect`: raised by `handle_request` on a clean end of stream -/
  | disconnect
  /-- `CommandError(message)` -/
  | commandError (message : List Char)
  /-- `IndexError`, e.g. from `exc.args[0]` on an empty `args` tuple -/
  | indexError
  /-- `AttributeError`, e.g. from `socket_file.flusth()` or a missing method -/
  | attributeError
  /-- `TypeError`, e.g. from calling a handler with the wrong argument count -/
  | typeError
  /-- `ValueError`, e.g. from `int(...)` on a non-numeric line -/
  | valueError
  /-- artifact of the embedding: the termination fuel ran out (never reached
  by any theorem in this file; all supply sufficient fuel) -/
  | modelFuel
deriving DecidableEq, Repr

mutual

/-- Python `==` on the values above (structural; it is only applied to
byte-string keys in this development, so the cross-type corners of Python
equality, such as `True == 1`, are irrelevant and not modelled). -/
def pyEq : PyVal → PyVal → Bool
  | .str a, .str b => a = b
  | .ustr a, .ustr b => a = b
  | .bool a, .bool b => a = b
  | .int a, .int b => a = b
  | .err a, .err b => a = b
  | .list a, .list b => pyEqList a b
  | .dict a, .dict b => pyEqPairs a b
  | .set a, .set b => pyEqList a b
  | .none, .none => true
  | .datetime a, .datetime b => a = b
  | .other a, .other b => a = b
  | _, _ => false

/-- Elementwise `==` on lists of values. -/
def pyEqList : List PyVal → List PyVal → Bool
  | [], [] => true
  | a :: as', b :: bs' => pyEq a b && pyEqList as' bs'
  | _, _ => false

/-- Elementwise `==` on association lists. -/
def pyEqPairs : List (PyVal × PyVal) → List (PyVal × PyVal) → Bool
  | [], [] => true
  | (ka, va) :: as', (kb, vb) :: bs' =>
      pyEq ka kb && pyEq va vb && pyEqPairs as' bs'
  | _, _ => false

end

/-- `"\r\n"`, the line terminator of the wire format. -/
def CRLF : List Char := ['\r', '\n']

/-- Decimal digits, most significant first, by fuel-indexed division (`n` has
fewer than `n + 1` digits, so the fuel in `natDigits` never runs out). -/
def natDigitsF : Nat → Nat → List Char
  | 0, _ => []
  | fuel + 1, n =>
      if n < 10 then [Char.ofNat (48 + n)]
      else natDigitsF fuel (n / 10) ++ [Char.ofNat (48 + n % 10)]

/-- Decimal digits of a natural number, most significant first
(the `%d` rendering for a non-negative value). -/
def natDigits (n : Nat) : List Char := natDigitsF (n + 1) n

/-- The `b'%d' % n` rendering of an integer. -/
def intRepr (n : Int) : List Char :=
  if n < 0 then '-' :: natDigits n.natAbs else natDigits n.toNat

mutual

/-- `ProtocolHandler._write`: the bytes appended to the `BytesIO` buffer when
serializing `data`.  The branches mirror the `isinstance` chain of the source:
byte string, unicode string, the `True`/`False` identity checks, `int`/`float`,
`Error`, `list`/`tuple`, `dict`, `set`, `None`, and finally
`datetime.datetime`, which recurses on `str(data)` (a Python 2 `str`).  A value
matching no branch falls off the end of the `elif` chain and writes nothing. -/
def ProtocolHandler.write : PyVal → List Char
  | .str s => '$' :: intRepr s.length ++ CRLF ++ s ++ CRLF
  | .ustr s => '^' :: intRepr s.length ++ CRLF ++ s ++ CRLF
  | .bool b => ':' :: intRepr (if b then 1 else 0) ++ CRLF
  | .int n => ':' :: intRepr n ++ CRLF
  | .err m => '-' :: m ++ CRLF
  | .list xs => '*' :: intRepr xs.length ++ CRLF ++ ProtocolHandler.writeList xs
  | .dict ps => '%' :: intRepr ps.length ++ CRLF ++ ProtocolHandler.writePairs ps
  | .set xs => '&' :: intRepr xs.length ++ CRLF ++ ProtocolHandler.writeList xs
  | .none => '$' :: '-' :: '1' :: CRLF
  -- `self._write(buf, str(data))`: `str(data)` on a `datetime` is a Python 2
  -- byte string, so the recursive call takes the first (`isinstance(data,
  -- bytes)`) branch; its bytes are written out here directly.
  | .datetime s => '$' :: intRepr s.length ++ CRLF ++ s ++ CRLF
  | .other _ => []

/-- The bytes written for the elements of a `list`/`tuple`/`set`, in order. -/
def ProtocolHandler.writeList : List PyVal → List Char
  | [] => []
  | x :: xs => ProtocolHandler.write x ++ ProtocolHandler.writeList xs

/-- The bytes written for the key/value pairs of a `dict`, in order. -/
def ProtocolHandler.writePairs : List (PyVal × PyVal) → List Char
  | [] => []
  | (k, v) :: ps =>
      ProtocolHandler.write k ++ ProtocolHandler.write v ++
        ProtocolHandler.writePairs ps

end

/-- `socket_file.readline()`: the bytes up to and including the first `'\n'`
(everything that remains if the stream ends first), together with the rest of
the stream. -/
def readline : List Char → List Char × List Char
  | [] => ([], [])
  | c :: rest =>
      if c = '\n' then ([c], rest)
      else
        let r := readline rest
        (c :: r.1, r.2)

/-- `.rstrip('\r\n')`: remove every trailing character that is `'\r'` or
`'\n'` (Python strips by character set, not by suffix). -/
def rstripCRLF (s : List Char) : List Char :=
  (s.reverse.dropWhile (fun c => c = '\r' ∨ c = '\n')).reverse

/-- `socket_file.read(n)`: for non-negative `n`, up to `n` bytes (fewer when
the stream ends first, the blocking read returning what arrived before EOF);
for negative `n`, everything up to EOF.  Returns the bytes read and the rest
of the stream. -/
def pyRead (n : Int) (s : List Char) : List Char × List Char :=
  if n < 0 then (s, []) else (s.take n.toNat, s.drop n.toNat)

/-- The value of a non-empty, all-digit character list, `none` otherwise. -/
def digitsVal (ds : List Char) : Option Nat :=
  if ds ≠ [] ∧ ds.all Char.isDigit then
    some (ds.foldl (fun a c => a * 10 + (c.toNat - 48)) 0)
  else
    Option.none

/-- Python `int(...)` on an already-stripped line: an optional sign followed
by decimal digits; anything else raises `ValueError` (modelled as `none`).
`int` additionally tolerates surrounding whitespace and embedded underscores,
which never occur in this development and are not modelled. -/
def parseIntPy (s : List Char) : Option Int :=
  match s with
  | [] => Option.none
  | c :: cs =>
      if c = '-' then
        match digitsVal cs with
        | Option.none => Option.none
        | some v => some (-(v : Int))
      else if c = '+' then
        match digitsVal cs with
        | Option.none => Option.none
        | some v => some ((v : Int))
      else
        match digitsVal (c :: cs) with
        | Option.none => Option.none
        | some v => some ((v : Int))

/-- `ProtocolHandler.handle_simple_string`: one line, terminator stripped. -/
def ProtocolHandler.handle_simple_string (s : List Char) :
    PyVal × List Char :=
  let r := readline s
  (.str (rstripCRLF r.1), r.2)

/-- `ProtocolHandler.handle_error`: one line, wrapped in `Error`. -/
def ProtocolHandler.handle_error (s : List Char) : PyVal × List Char :=
  let r := readline s
  (.err (rstripCRLF r.1), r.2)

/-- `ProtocolHandler.handle_integer`: one line through `int(...)`. -/
def ProtocolHandler.handle_integer (s : List Char) :
    Except PyExc (PyVal × List Char) :=
  let r := readline s
  match parseIntPy (rstripCRLF r.1) with
  | Option.none => .error .valueError
  | some n => .ok (.int n, r.2)

/-- `ProtocolHandler.handle_string`: read the declared length `n`; `-1` gives
`None`; otherwise `read(n + 2)[:-2]` — note the source never checks that the
read actually returned `n + 2` bytes, nor that the last two are `"\r\n"`. -/
def ProtocolHandler.handle_string (s : List Char) :
    Except PyExc (PyVal × List Char) :=
  let r := readline s
  match parseIntPy (rstripCRLF r.1) with
  | Option.none => .error .valueError
  | some length =>
      if length = -1 then .ok (.none, r.2)
      else
        let chunk := pyRead (length + 2) r.2
        .ok (.str (chunk.1.take (chunk.1.length - 2)), chunk.2)

/-- `zip(items[::2], items[1::2])`: consecutive elements paired up, the
unpaired trailing element of an odd-length list silently dropped. -/
def zipPairs : List α → List (α × α)
  | a :: b :: rest => (a, b) :: zipPairs rest
  | _ => []

/-- `d[k] = v` on a Python dict, modelled on the association list: replace the
value of the first (and, with unique keys, only) entry whose key compares `==`
to `k`, else append a new entry. -/
def pyDictInsert (d : List (PyVal × PyVal)) (k v : PyVal) :
    List (PyVal × PyVal) :=
  match d with
  | [] => [(k, v)]
  | (k', v') :: rest =>
      if pyEq k' k then (k', v) :: rest else (k', v') :: pyDictInsert rest k v

/-- `dict(zip(elements[::2], elements[1::2]))`: pair consecutive elements and
build the dict, a later duplicate key overwriting the earlier entry. -/
def pyDictOfZip (vs : List PyVal) : List (PyVal × PyVal) :=
  (zipPairs vs).foldl (fun d p => pyDictInsert d p.1 p.2) []

mutual

/-- `ProtocolHandler.handle_request`: on an empty stream (`read(1)` returns no
byte) raise `Disconnect`; otherwise dispatch on the tag byte through the
`self.handlers` table built in `__init__`.  That table registers exactly
`'+'`, `'-'`, `':'`, `'$'`, `'*'` and `'%'` — in particular neither `'&'`
(although a `handle_set` method exists) nor the `'^'` tag the encoder emits —
so any other tag byte raises `KeyError`, which the source converts to
`CommandError('bad request')`.  The first argument is termination fuel. -/
def ProtocolHandler.handle_request :
    Nat → List Char → Except PyExc (PyVal × List Char)
  | 0, _ => .error .modelFuel
  | _ + 1, [] => .error .disconnect
  | fuel + 1, c :: rest =>
      if c = '+' then .ok (ProtocolHandler.handle_simple_string rest)
      else if c = '-' then .ok (ProtocolHandler.handle_error rest)
      else if c = ':' then ProtocolHandler.handle_integer rest
      else if c = '$' then ProtocolHandler.handle_string rest
      else if c = '*' then
        -- handle_array: read the element count, then decode that many frames
        let r := readline rest
        match parseIntPy (rstripCRLF r.1) with
        | Option.none => .error .valueError
        | some n =>
            -- `range(n)` on a negative count is empty, hence `.toNat`
            match ProtocolHandler.handle_many fuel n.toNat r.2 with
            | .error e => .error e
            | .ok (vs, s') => .ok (.list vs, s')
      else if c = '%' then
        -- handle_dict: read the pair count, decode `2 * n` frames, then
        -- `dict(zip(elements[::2], elements[1::2]))`
        let r := readline rest
        match parseIntPy (rstripCRLF r.1) with
        | Option.none => .error .valueError
        | some n =>
            match ProtocolHandler.handle_many fuel (n.toNat * 2) r.2 with
            | .error e => .error e
            | .ok (vs, s') => .ok (.dict (pyDictOfZip vs), s')
      else .error (.commandError ("bad request".toList))

/-- Decoding of `n` successive frames (the list comprehensions in
`handle_array` / `handle_dict`). -/
def ProtocolHandler.handle_many :
    Nat → Nat → List Char → Except PyExc (List PyVal × List Char)
  | _, 0, s => .ok ([], s)
  | 0, _ + 1, _ => .error .modelFuel
  | fuel + 1, n + 1, s =>
      match ProtocolHandler.handle_request fuel s with
      | .error e => .error e
      | .ok (v, s') =>
          match ProtocolHandler.handle_many fuel n s' with
          | .error e => .error e
          | .ok (vs, s'') => .ok (v :: vs, s'')

end

/-- `ProtocolHandler.handle_set`: defined in the source as
`set(self.handle_array(socket_file))`, but never registered in the
`self.handlers` table, so no tag byte ever reaches it. -/
def ProtocolHandler.handle_set (fuel : Nat) (s : List Char) :
    Except PyExc (PyVal × List Char) :=
  match ProtocolHandler.handle_request fuel ('*' :: s) with
  | .ok (.list vs, s') => .ok (.set vs, s')
  | .ok (v, s') => .ok (v, s')
  | .error e => .error e

/-- The shared `self._kv` dict: an association list in insertion order with
pairwise `==`-distinct keys. -/
abbrev Store := List (PyVal × PyVal)

/-- `self._kv.get(key)`: the value of the entry whose key compares `==`, if
any. -/
def pyDictGet (d : Store) (k : PyVal) : Option PyVal :=
  match d with
  | [] => Option.none
  | (k', v') :: rest => if pyEq k' k then some v' else pyDictGet rest k

/-- `del self._kv[key]`: drop the entry whose key compares `==`. -/
def pyDictRemove (d : Store) (k : PyVal) : Store :=
  match d with
  | [] => []
  | (k', v') :: rest =>
      if pyEq k' k then rest else (k', v') :: pyDictRemove rest k

/-- Membership test `key in self._kv`. -/
def pyDictHas (d : Store) (k : PyVal) : Bool :=
  match d with
  | [] => false
  | (k', _) :: rest => pyEq k' k || pyDictHas rest k

/-!
Command handlers.  Each is modelled as a function from the store and the
positional argument list to the outcome and the resulting store.  The
dispatcher calls them as `self._commands[command](*data[1:])`; a handler with
a fixed signature called with the wrong number of positional arguments raises
`TypeError` at that call, before its body runs — the arity mismatch arm of
each definition models exactly that call-time failure.
-/

/-- `Server.get(self, key)`: `self._kv.get(key)` — `None` when absent. -/
def Server.get (kv : Store) (args : List PyVal) :
    Except PyExc PyVal × Store :=
  match args with
  | [key] => (.ok ((pyDictGet kv key).getD .none), kv)
  | _ => (.error .typeError, kv)

/-- `Server.set(self, key, value)`: store the pair, return `1`. -/
def Server.set (kv : Store) (args : List PyVal) :
    Except PyExc PyVal × Store :=
  match args with
  | [key, value] => (.ok (.int 1), pyDictInsert kv key value)
  | _ => (.error .typeError, kv)

/-- `Server.delete(self, key)`: remove if present, return `1` or `0`. -/
def Server.delete (kv : Store) (args : List PyVal) :
    Except PyExc PyVal × Store :=
  match args with
  | [key] =>
      if pyDictHas kv key then (.ok (.int 1), pyDictRemove kv key)
      else (.ok (.int 0), kv)
  | _ => (.error .typeError, kv)

/-- `Server.flush(self)`: the prior entry count, and a cleared store. -/
def Server.flush (kv : Store) (args : List PyVal) :
    Except PyExc PyVal × Store :=
  match args with
  | [] => (.ok (.int kv.length), [])
  | _ => (.error .typeError, kv)

/-- `Server.mget(self, *keys)`: one lookup per key, in order (any arity). -/
def Server.mget (kv : Store) (args : List PyVal) :
    Except PyExc PyVal × Store :=
  (.ok (.list (args.map (fun k => (pyDictGet kv k).getD .none))), kv)

/-- `Server.mset(self, *items)`: `zip(items[::2], items[1::2])` silently drops
an unpaired trailing item; every resulting pair is written to the store, and
the pair count is returned.  (`len(data)` on the zip is well defined in
Python 2, where `zip` returns a list; under Python 3 the same line raises
`TypeError` — after the writes have already happened.) -/
def Server.mset (kv : Store) (args : List PyVal) :
    Except PyExc PyVal × Store :=
  let data := zipPairs args
  (.ok (.int data.length), data.foldl (fun d p => pyDictInsert d p.1 p.2) kv)

/-- Python `str.split()` with no argument: split on runs of whitespace,
producing no empty tokens. -/
def pySplitWs (s : List Char) : List (List Char) :=
  match s with
  | [] => []
  | c :: rest =>
      if c.isWhitespace then pySplitWs rest
      else
        match pySplitWs rest with
        | [] => [[c]]
        | t :: ts =>
            if rest ≠ [] ∧ (rest.head?.getD ' ').isWhitespace then
              [c] :: t :: ts
            else (c :: t) :: ts

/-- `.upper()` on a Python 2 byte string: uppercase the ASCII letters. -/
def pyUpper (s : List Char) : List Char :=
  s.map (fun c => if 'a' ≤ c ∧ c ≤ 'z' then Char.ofNat (c.toNat - 32) else c)

/-- The keys of the `self._commands` registry built by `get_commands`. -/
def commandNames : List (List Char) :=
  ["GET", "SET", "DELETE", "FLUSH", "MGET", "MSET"].map String.toList

/-- Dispatch `self._commands[command](*data[1:])` by command name. -/
def runCommand (cmd : List Char) (kv : Store) (args : List PyVal) :
    Except PyExc PyVal × Store :=
  if cmd = "GET".toList then Server.get kv args
  else if cmd = "SET".toList then Server.set kv args
  else if cmd = "DELETE".toList then Server.delete kv args
  else if cmd = "FLUSH".toList then Server.flush kv args
  else if cmd = "MGET".toList then Server.mget kv args
  else Server.mset kv args

/-- The token list extracted by `get_response`: a `list` is used as is; a
string is split on whitespace (`data.split()`); any other value has no
`split` attribute, and the bare `except:` converts the `AttributeError` into
`CommandError('Request must be list or simple string.')`. -/
def splitTokens : PyVal → Except PyExc (List PyVal)
  | .list xs => .ok xs
  | .str s => .ok ((pySplitWs s).map .str)
  | .ustr s => .ok ((pySplitWs s).map .ustr)
  | _ => .error (.commandError ("Request must be list or simple string.".toList))

/-- `data[0].upper()`: only the two string types have an `upper` method; any
other first token raises `AttributeError` (uncaught in the source). -/
def pyValUpper : PyVal → Except PyExc (List Char)
  | .str s => .ok (pyUpper s)
  | .ustr s => .ok (pyUpper s)
  | _ => .error .attributeError

/-- `Server.get_response`: normalize the request to a token list, reject an
empty one, uppercase the first token, look it up in the registry (an unknown
name raises `CommandError('Unrecognized command: ...')`), and run the matched
handler on the remaining tokens. -/
def Server.get_response (kv : Store) (data : PyVal) :
    Except PyExc PyVal × Store :=
  match splitTokens data with
  | .error e => (.error e, kv)
  | .ok toks =>
      match toks with
      | [] => (.error (.commandError ("Missing command".toList)), kv)
      | t0 :: rest =>
          match pyValUpper t0 with
          | .error e => (.error e, kv)
          | .ok command =>
              if command ∈ commandNames then runCommand command kv rest
              else
                (.error (.commandError
                  ("Unrecognized command: ".toList ++ command)), kv)

/-- The `args` tuple of a `CommandError(message)`: `__init__` stores `message`
on the instance but calls `super(CommandError, self).__init__()` with **no**
arguments, so the tuple is empty whatever the message was. -/
def commandErrorArgs (_message : List Char) : List (List Char) := []

/-- `ProtocolHandler.write_response`: serialize `data` into a fresh `BytesIO`,
hand the buffer to `socket_file.write`, then call `socket_file.flusth()` —
a file object has no attribute `flusth` (the method is `flush`), so every
call raises `AttributeError` after the bytes were handed to the buffered
writer.  Returns the output accumulator extended by the buffered bytes,
paired with the outcome. -/
def ProtocolHandler.write_response (out : List Char) (data : PyVal) :
    List Char × Except PyExc Unit :=
  (out ++ ProtocolHandler.write data, .error .attributeError)

/-- How a run of `Server.connection_handler` ends, with the store and the
bytes handed to the socket writer at that point. -/
inductive LoopResult where
  /-- the `except Disconnect: break` path — a clean exit -/
  | disconnected (kv : Store) (out : List Char)
  /-- an uncaught exception destroyed the handler -/
  | aborted (e : PyExc) (kv : Store) (out : List Char)
  /-- artifact: loop fuel ran out (never reached by the theorems below) -/
  | fuelOut (kv : Store) (out : List Char)

/-- `Server.connection_handler`: repeatedly decode one request (only
`Disconnect` is caught there, by `break`), run `get_response` catching only
`CommandError` — whose empty `args` tuple makes `resp = Error(exc.args[0])`
raise `IndexError` — and send the response through `write_response`.  Any
exception not listed above propagates and destroys the handler. -/
def Server.connection_handler :
    Nat → List Char → Store → List Char → LoopResult
  | 0, _, kv, out => .fuelOut kv out
  | fuel + 1, s, kv, out =>
      -- decode fuel: each decoding step consumes input, so any bound well
      -- above the stream length is inexhaustible
      match ProtocolHandler.handle_request (4 * s.length + 4) s with
      | .error .disconnect => .disconnected kv out
      | .error e => .aborted e kv out
      | .ok (data, s') =>
          match Server.get_response kv data with
          | (.ok resp, kv') =>
              let w := ProtocolHandler.write_response out resp
              match w.2 with
              | .ok _ => Server.connection_handler fuel s' kv' w.1
              | .error e => .aborted e kv' w.1
          | (.error (.commandError m), kv') =>
              match (commandErrorArgs m).get? 0 with
              | Option.none => .aborted .indexError kv' out
              | some msg =>
                  let w := ProtocolHandler.write_response out (.err msg)
                  match w.2 with
                  | .ok _ => Server.connection_handler fuel s' kv' w.1
                  | .error e => .aborted e kv' w.1
          | (.error e, kv') => .aborted e kv' out

/-! ## Supporting lemmas about the stream primitives -/

theorem readline_append {pre : List Char} (hnl : '\n' ∉ pre)
    (rest : List Char) :
    readline (pre ++ '\n' :: rest) = (pre ++ ['\n'], rest) := by
  induction pre with
  | nil => simp [readline]
  | cons c cs ih =>
      have hc : ¬(c = '\n') := fun h => hnl (h ▸ List.mem_cons_self c cs)
      have hcs : '\n' ∉ cs := fun h => hnl (List.mem_cons_of_mem c h)
      simp [readline, hc, ih hcs]

theorem rstripCRLF_append_crlf (s : List Char) :
    rstripCRLF (s ++ ['\r', '\n']) = rstripCRLF s := by
  simp [rstripCRLF, List.dropWhile]

theorem rstripCRLF_eq_self {s : List Char}
    (h : ∀ c ∈ s, ¬(c = '\r' ∨ c = '\n')) : rstripCRLF s = s := by
  unfold rstripCRLF
  cases hrev : s.reverse with
  | nil => simpa using congrArg List.reverse hrev.symm
  | cons a t =>
      have ha : a ∈ s := by
        rw [← List.mem_reverse, hrev]; exact List.mem_cons_self a t
      have hfalse : ¬(a = '\r' ∨ a = '\n') := h a ha
      have : List.dropWhile (fun c => decide (c = '\r' ∨ c = '\n')) (a :: t) =
          a :: t := by
        simp [List.dropWhile, hfalse]
      rw [this, ← hrev, List.reverse_reverse]

theorem digitsVal_isDigit {ds : List Char} {v : Nat}
    (h : digitsVal ds = some v) : ds ≠ [] ∧ ∀ c ∈ ds, c.isDigit := by
  unfold digitsVal at h
  split at h
  · rename_i hcond
    exact ⟨hcond.1, fun c hc => List.all_eq_true.mp hcond.2 c hc⟩
  · cases h

theorem parseIntPy_not_crlf {s : List Char} {v : Int}
    (h : parseIntPy s = some v) : ∀ c ∈ s, ¬(c = '\r' ∨ c = '\n') := by
  have digit_ok : ∀ {ds : List Char} {w : Nat}, digitsVal ds = some w →
      ∀ c ∈ ds, ¬(c = '\r' ∨ c = '\n') := by
    intro ds w hds c hc hcon
    have hd := (digitsVal_isDigit hds).2 c hc
    rcases hcon with h1 | h1 <;> rw [h1] at hd <;> exact absurd hd (by decide)
  match s with
  | [] => exact fun c hc => absurd hc (List.not_mem_nil c)
  | c0 :: cs =>
      intro c hc
      simp only [parseIntPy] at h
      by_cases h0 : c0 = '-'
      · rw [if_pos h0] at h
        cases hw : digitsVal cs with
        | none => rw [hw] at h; cases h
        | some w =>
            rcases List.mem_cons.mp hc with hceq | hcm
            · subst hceq; subst h0; decide
            · exact digit_ok hw c hcm
      · rw [if_neg h0] at h
        by_cases h1 : c0 = '+'
        · rw [if_pos h1] at h
          cases hw : digitsVal cs with
          | none => rw [hw] at h; cases h
          | some w =>
              rcases List.mem_cons.mp hc with hceq | hcm
              · subst hceq; subst h1; decide
              · exact digit_ok hw c hcm
        · rw [if_neg h1] at h
          cases hw : digitsVal (c0 :: cs) with
          | none => rw [hw] at h; cases h
          | some w => exact digit_ok hw c hc

/-- The length line of a frame, as consumed by the decoder: `readline`
followed by `rstrip('\r\n')` followed by `int(...)` recovers exactly the
integer of the line, leaving the stream after the terminator. -/
theorem decode_int_line {ds : List Char} {v : Int}
    (hp : parseIntPy ds = some v) (tail : List Char) :
    readline (ds ++ '\r' :: '\n' :: tail) = (ds ++ ['\r', '\n'], tail)
    ∧ parseIntPy (rstripCRLF (ds ++ ['\r', '\n'])) = some v := by
  have hchars := parseIntPy_not_crlf hp
  have hnl : '\n' ∉ ds ++ ['\r'] := by
    intro hm
    rcases List.mem_append.mp hm with hm | hm
    · exact hchars _ hm (Or.inr rfl)
    · simp at hm
  constructor
  · simpa [List.append_assoc] using readline_append hnl tail
  · rw [rstripCRLF_append_crlf, rstripCRLF_eq_self hchars, hp]

/-- C7: for every bulk-string frame, the decoder reads one integer line as the
declared length `n`; if `n` is `-1` the result is the absent sentinel `None`;
otherwise it reads exactly `n + 2` bytes and returns the first `n` of them,
discarding the trailing two terminator bytes without validating their content
(`t1` and `t2` are arbitrary). -/
theorem handle_string_reads_declared_length :
    (∀ (ds payload rest : List Char) (t1 t2 : Char) (n : Nat),
        parseIntPy ds = some (n : Int) → payload.length = n →
        ProtocolHandler.handle_string
            (ds ++ '\r' :: '\n' :: (payload ++ t1 :: t2 :: rest)) =
          .ok (.str payload, rest))
    ∧ (∀ (ds rest : List Char),
        parseIntPy ds = some (-1) →
        ProtocolHandler.handle_string (ds ++ '\r' :: '\n' :: rest) =
          .ok (.none, rest)) := by
  constructor
  · intro ds payload rest t1 t2 n hp hlen
    obtain ⟨hr, hparse⟩ := decode_int_line hp (payload ++ t1 :: t2 :: rest)
    have hsplit : payload ++ t1 :: t2 :: rest = (payload ++ [t1, t2]) ++ rest := by
      simp
    have hlen2 : (payload ++ [t1, t2]).length = n + 2 := by
      simp [hlen]
    have htoNat : (((n : Int) + 2)).toNat = n + 2 := by omega
    simp only [ProtocolHandler.handle_string, hr, hparse]
    rw [if_neg (by omega : ¬((n : Int) = -1))]
    simp only [pyRead, htoNat]
    rw [if_neg (by omega : ¬((n : Int) + 2 < 0))]
    simp only [hsplit, List.take_left' hlen2, List.drop_left' hlen2, hlen2]
    rw [(by omega : n + 2 - 2 = n), List.take_left' hlen]
  · intro ds rest hp
    obtain ⟨hr, hparse⟩ := decode_int_line hp rest
    simp [ProtocolHandler.handle_string, hr, hparse]

/-- Witness for `handle_string_reads_declared_length` at concrete inputs:
`"3\r\nabcXY"` decodes to the bulk string `"abc"` (the unvalidated trailing
bytes being `'X'` and `'Y'`), and `"-1\r\nQ"` decodes to `None` leaving
`"Q"` unread. -/
theorem handle_string_reads_declared_length_witness :
    ProtocolHandler.handle_string ("3\r\nabcXY".toList) =
      .ok (.str "abc".toList, [])
    ∧ ProtocolHandler.handle_string ("-1\r\nQ".toList) =
        .ok (.none, "Q".toList) := by
  constructor
  · exact handle_string_reads_declared_length.1 "3".toList "abc".toList []
      'X' 'Y' 3 (by decide) (by decide)
  · exact handle_string_reads_declared_length.2 "-1".toList "Q".toList
      (by decide)

/-! ## FLUSH semantics -/

/-- Writing a sequence of key/value pairs through `Server.set`, left to
right (the "N distinct keys have been written" premise of the FLUSH
property). -/
def setKeys (kv : Store) (ps : List (PyVal × PyVal)) : Store :=
  ps.foldl (fun acc p => (Server.set acc [p.1, p.2]).2) kv

theorem pyDictInsert_fresh {kv : Store} {k : PyVal} (v : PyVal)
    (h : ∀ p ∈ kv, pyEq p.1 k = false) :
    pyDictInsert kv k v = kv ++ [(k, v)] := by
  induction kv with
  | nil => rfl
  | cons q rest ih =>
      obtain ⟨k', v'⟩ := q
      have h0 : pyEq k' k = false := h (k', v') (List.mem_cons_self _ _)
      simp [pyDictInsert, h0,
        ih (fun p hp => h p (List.mem_cons_of_mem _ hp))]

theorem setKeys_fresh {ps : List (PyVal × PyVal)} :
    ∀ {kv : Store},
      List.Pairwise (fun a b => pyEq a.1 b.1 = false) ps →
      (∀ p ∈ kv, ∀ q ∈ ps, pyEq p.1 q.1 = false) →
      setKeys kv ps = kv ++ ps := by
  induction ps with
  | nil => intro kv _ _; simp [setKeys]
  | cons q ps ih =>
      intro kv hpair hfresh
      obtain ⟨k, v⟩ := q
      have hstep : (Server.set kv [k, v]).2 = kv ++ [(k, v)] :=
        pyDictInsert_fresh v
          (fun p hp => hfresh p hp (k, v) (List.mem_cons_self _ _))
      have hrest : setKeys (kv ++ [(k, v)]) ps = (kv ++ [(k, v)]) ++ ps := by
        refine ih (List.Pairwise.sublist (List.sublist_cons_self _ _) hpair) ?_
        intro p hp q2 hq2
        rcases List.mem_append.mp hp with hp1 | hp1
        · exact hfresh p hp1 q2 (List.mem_cons_of_mem _ hq2)
        · rcases List.mem_singleton.mp hp1 with rfl
          exact (List.pairwise_cons.mp hpair).1 q2 hq2
      calc setKeys kv ((k, v) :: ps)
          = setKeys (Server.set kv [k, v]).2 ps := rfl
        _ = setKeys (kv ++ [(k, v)]) ps := by rw [hstep]
        _ = (kv ++ [(k, v)]) ++ ps := hrest
        _ = kv ++ ((k, v) :: ps) := by simp

/-- C8: `FLUSH` on the empty store returns count `0`; after `N` pairwise
distinct keys have been written, `FLUSH` returns `N` and leaves the store
empty, and a subsequent `GET` (on any key at all, the written ones included)
returns the absent sentinel `None`. -/
theorem flush_counts_and_clears (ps : List (PyVal × PyVal))
    (h : List.Pairwise (fun a b => pyEq a.1 b.1 = false) ps) :
    Server.flush [] [] = (.ok (.int 0), [])
    ∧ Server.flush (setKeys [] ps) [] = (.ok (.int ps.length), [])
    ∧ ∀ k, Server.get (Server.flush (setKeys [] ps) []).2 [k] =
        (.ok PyVal.none, []) := by
  have hsk : setKeys [] ps = ps := by
    simpa using setKeys_fresh h (fun p hp => absurd hp (List.not_mem_nil p))
  refine ⟨rfl, ?_, ?_⟩
  · rw [hsk]; rfl
  · intro k; rw [hsk]; rfl

/-- Witness for `flush_counts_and_clears`: after writing the two distinct
keys `"a"` and `"b"`, `FLUSH` returns `2` and a `GET` of `"a"` finds
nothing. -/
theorem flush_counts_and_clears_witness :
    Server.flush
        (setKeys [] [(.str "a".toList, .int 1), (.str "b".toList, .int 2)])
        [] =
      (.ok (.int 2), [])
    ∧ Server.get
        (Server.flush
          (setKeys []
            [(.str "a".toList, .int 1), (.str "b".toList, .int 2)]) []).2
        [.str "a".toList] =
      (.ok PyVal.none, []) := by
  have h := flush_counts_and_clears
    [(.str "a".toList, .int 1), (.str "b".toList, .int 2)] (by decide)
  exact ⟨h.2.1, h.2.2 (.str "a".toList)⟩

/-! ## Dispatch, the connection loop, and the encoder fallback -/

/-- C1: an unknown command does raise the recoverable
`CommandError('Unrecognized command: FOO')` inside `get_response` — but the
connection loop's conversion `resp = Error(exc.args[0])` hits the empty `args`
tuple of `CommandError` (whose `__init__` never forwards the message to
`Exception.__init__`), so the handler dies with `IndexError`: no Error frame
is written (the output stays empty) and the connection is aborted instead of
returning to await the next frame. -/
theorem unknown_command_aborts_connection :
    Server.get_response [] (.list [.str "FOO".toList]) =
      (.error (.commandError ("Unrecognized command: FOO".toList)), [])
    ∧ Server.connection_handler 4 ("*1\r\n$3\r\nFOO\r\n".toList) [] [] =
        .aborted .indexError [] [] :=
  ⟨rfl, rfl⟩

/-- C2: the encode/decode round trip fails for the set kind: `_write`
serializes a one-element set as `&1\r\n$1\r\na\r\n`, but the decoder's
handler table has no entry for `'&'` (although a `handle_set` method exists,
it is never registered), so decoding the encoder's own output raises
`CommandError('bad request')` instead of reproducing the set. -/
theorem set_roundtrip_fails :
    ProtocolHandler.write (.set [.str "a".toList]) = "&1\r\n$1\r\na\r\n".toList
    ∧ ProtocolHandler.handle_request 50
        (ProtocolHandler.write (.set [.str "a".toList])) =
      .error (.commandError ("bad request".toList)) :=
  ⟨rfl, rfl⟩

/-- Round trips that do hold, for contrast with `set_roundtrip_fails`:
byte string, negative integer, error, absent sentinel, array and map all
decode back from their own encodings. -/
theorem roundtrip_examples :
    ProtocolHandler.handle_request 50 (ProtocolHandler.write (.str "ab".toList)) =
      .ok (.str "ab".toList, [])
    ∧ ProtocolHandler.handle_request 50 (ProtocolHandler.write (.int (-7))) =
        .ok (.int (-7), [])
    ∧ ProtocolHandler.handle_request 50 (ProtocolHandler.write (.err "oops".toList)) =
        .ok (.err "oops".toList, [])
    ∧ ProtocolHandler.handle_request 50 (ProtocolHandler.write PyVal.none) =
        .ok (PyVal.none, [])
    ∧ ProtocolHandler.handle_request 50
        (ProtocolHandler.write (.list [.str "a".toList, .int 2])) =
      .ok (.list [.str "a".toList, .int 2], [])
    ∧ ProtocolHandler.handle_request 50
        (ProtocolHandler.write (.dict [(.str "k".toList, .str "v".toList)])) =
      .ok (.dict [(.str "k".toList, .str "v".toList)], []) :=
  ⟨rfl, rfl, rfl, rfl, rfl, rfl⟩

/-- C3: the spec's four-step scenario.  The dispatch-and-encode pipeline
produces exactly the expected payloads — `SET x 1` answers `1` encoded as
`:1\r\n`, `GET x` answers `"1"` encoded as `$1\r\n1\r\n`, `DELETE x` answers
`1`, and the final `GET x` answers the absent sentinel encoded as `$-1\r\n` —
but the connection does not survive even the first exchange: `write_response`
calls the nonexistent file method `flusth`, so the loop dies with
`AttributeError` right after buffering `:1\r\n`, leaving the three later
requests unread. -/
theorem concrete_scenario_aborts_on_first_response :
    Server.get_response []
        (.list [.str "SET".toList, .str "x".toList, .str "1".toList]) =
      (.ok (.int 1), [(.str "x".toList, .str "1".toList)])
    ∧ ProtocolHandler.write (.int 1) = ":1\r\n".toList
    ∧ Server.get_response [(.str "x".toList, .str "1".toList)]
        (.list [.str "GET".toList, .str "x".toList]) =
      (.ok (.str "1".toList), [(.str "x".toList, .str "1".toList)])
    ∧ ProtocolHandler.write (.str "1".toList) = "$1\r\n1\r\n".toList
    ∧ Server.get_response [(.str "x".toList, .str "1".toList)]
        (.list [.str "DELETE".toList, .str "x".toList]) =
      (.ok (.int 1), [])
    ∧ Server.get_response [] (.list [.str "GET".toList, .str "x".toList]) =
        (.ok PyVal.none, [])
    ∧ ProtocolHandler.write PyVal.none = "$-1\r\n".toList
    ∧ Server.connection_handler 8
        (("*3\r\n$3\r\nSET\r\n$1\r\nx\r\n$1\r\n1\r\n" ++
          "*2\r\n$3\r\nGET\r\n$1\r\nx\r\n" ++
          "*2\r\n$6\r\nDELETE\r\n$1\r\nx\r\n" ++
          "*2\r\n$3\r\nGET\r\n$1\r\nx\r\n").toList) [] [] =
      .aborted .attributeError [(.str "x".toList, .str "1".toList)]
        (":1\r\n".toList) :=
  ⟨rfl, rfl, rfl, rfl, rfl, rfl, rfl, rfl⟩

/-- C5: a handler fault that is not a `CommandError` — here the `TypeError`
from calling `get(key)` with no argument — is not caught by the dispatch
boundary (only `CommandError` is), so it propagates and aborts the
connection with no Error frame written. -/
theorem handler_fault_aborts_connection :
    Server.get_response [] (.list [.str "GET".toList]) = (.error .typeError, [])
    ∧ Server.connection_handler 4 ("*1\r\n$3\r\nGET\r\n".toList) [] [] =
        .aborted .typeError [] [] :=
  ⟨rfl, rfl⟩

/-- C6: a stream that ends after one byte of a bulk string declared with
length 9 is not observed as end-of-stream: `read(11)` silently returns the
single available byte, `[:-2]` shrinks it to the empty string, the request
decodes as `SET x ''`, and running the loop on it mutates the store (the key
`x` is written with the corrupted empty value) before dying on the
`flusth` AttributeError. -/
theorem truncated_bulk_string_corrupts_store :
    ProtocolHandler.handle_request 50 ("*3\r\n$3\r\nSET\r\n$1\r\nx\r\n$9\r\n1".toList) =
      .ok (.list [.str "SET".toList, .str "x".toList, .str []], [])
    ∧ Server.connection_handler 4
        ("*3\r\n$3\r\nSET\r\n$1\r\nx\r\n$9\r\n1".toList) [] [] =
      .aborted .attributeError [(.str "x".toList, .str [])] (":1\r\n".toList) :=
  ⟨rfl, rfl⟩

/-- C4 counterexample: `MSET k1 v1 k2` (odd argument count) is neither
rejected nor left unapplied: dispatch succeeds with result `1` and the store
gains the pair `k1 -> v1` (the trailing `k2` is silently dropped). -/
theorem mset_odd_not_rejected_cex :
    Server.get_response []
        (.list [.str "MSET".toList, .str "k1".toList, .str "v1".toList,
          .str "k2".toList]) =
      (.ok (.int 1), [(.str "k1".toList, .str "v1".toList)])
    ∧ ([(.str "k1".toList, .str "v1".toList)] : Store) ≠ [] :=
  ⟨rfl, List.cons_ne_nil _ _⟩

/-- The token list `k1 v1 k2 v2 ...` of a pair list. -/
def pairsTokens (ps : List (PyVal × PyVal)) : List PyVal :=
  ps.foldr (fun p acc => p.1 :: p.2 :: acc) []

theorem zipPairs_pairsTokens_append (ps : List (PyVal × PyVal)) (x : PyVal) :
    zipPairs (pairsTokens ps ++ [x]) = ps := by
  induction ps with
  | nil => rfl
  | cons p ps ih =>
      obtain ⟨a, b⟩ := p
      simpa [pairsTokens, zipPairs] using ih

/-- C4 as amended: an `MSET` whose token list is an even-length pair list
followed by one unpaired trailing token is not rejected — `zip` silently
drops the trailing token, all the complete pairs are written to the store,
and the pair count is returned. -/
theorem mset_odd_drops_trailing_token (kv : Store)
    (ps : List (PyVal × PyVal)) (x : PyVal) :
    Server.get_response kv
        (.list (.str "MSET".toList :: (pairsTokens ps ++ [x]))) =
      (.ok (.int ps.length),
        ps.foldl (fun d p => pyDictInsert d p.1 p.2) kv) := by
  show Server.mset kv (pairsTokens ps ++ [x]) = _
  unfold Server.mset
  rw [zipPairs_pairsTokens_append]

/-- C9 counterexample: a value of an unhandled type (modelled by `.other`,
carrying its text representation) is not serialized via its text-string
representation: `_write` falls off the end of its `elif` chain and produces
no output at all, while the text-string serialization of the same text is
nonempty. -/
theorem unhandled_type_writes_nothing_cex :
    ProtocolHandler.write (.other ("2024-01-01 00:00:00".toList)) = []
    ∧ ProtocolHandler.write (.str ("2024-01-01 00:00:00".toList)) ≠ [] :=
  ⟨rfl, by decide⟩

/-- C9 as amended: the only type outside the generic encoding cases that
falls back to its text-string representation is `datetime.datetime`, whose
text form is written as a bulk string; a value of any other unhandled type
produces no output at all. -/
theorem datetime_fallback_only (s r : List Char) :
    ProtocolHandler.write (.datetime s) =
      '$' :: intRepr s.length ++ CRLF ++ s ++ CRLF
    ∧ ProtocolHandler.write (.other r) = [] :=
  ⟨rfl, rfl⟩

/-- C10: the `GET` and `MGET` handlers are pure reads: whatever the store
and the argument list (matching arity or not), the store component of the
outcome is the store that was passed in. -/
theorem get_mget_leave_store_unchanged (kv : Store) (args : List PyVal) :
    (Server.get kv args).2 = kv ∧ (Server.mget kv args).2 = kv := by
  refine ⟨?_, rfl⟩
  cases args with
  | nil => rfl
  | cons a l =>
      cases l with
      | nil => rfl
      | cons b m => rfl
